import Mathlib

/-!
Verification of the police_scanner ingestion-and-processing pipeline.

Shallow embedding of the claim-based audio worker (app_scheduler/audio_worker.py),
the feed poller's idempotent insert and the adaptive quality tiering
(app_scheduler/get_calls.py), and the transcription dispatcher's selection query
(app_scheduler/transcription_dispatcher.py).

Embedding conventions:
* Python strings are embedded as `List Char` (Python slicing and stripping act on
  code points).
* Timestamps (`NOW()`, `picked_at`, `fetched_at`, ...) are natural numbers
  counting minutes on one global clock, passed explicitly as a `now` argument.
* The Postgres table `bcfy_calls_raw` is a list of `CallRow` records; columns the
  pipeline code never reads back (freq, src, node_id, sid, site_id, size_bytes,
  raw_json, tag_id) are omitted from the record.
* SQL statements are embedded by their row-level semantics: `UPDATE ... WHERE c`
  maps the update over the rows satisfying `c` and reports the number of matched
  rows; `INSERT ... ON CONFLICT (call_uid) DO NOTHING RETURNING call_uid` inserts
  unless a row with the same `call_uid` exists and reports which happened;
  `SELECT ... ORDER BY fetched_at ASC LIMIT n` sorts, then takes `n`.
* The claim query's short `FOR UPDATE SKIP LOCKED` transaction is embedded as one
  atomic step on the table: the transaction performs no I/O (audio_worker.py
  lines 74-96), so two overlapping claim transactions serialize — the later one
  skips the rows the earlier one has locked, which are exactly the rows the
  earlier one commits as `processing`, so any interleaving equals running the two
  steps in sequence.
-/

namespace PoliceScanner

/-- Python str, embedded as its list of code points. -/
abbrev Str := List Char

/-- Default of env var AUDIO_WORKER_BATCH_SIZE (audio_worker.py line 36). -/
def BATCH_SIZE : Nat := 20

/-- Default of env var AUDIO_WORKER_MAX_RETRIES (audio_worker.py line 37). -/
def MAX_RETRIES : Nat := 2

/-- Exponential backoff base, seconds (audio_worker.py line 38). -/
def RETRY_BACKOFF_BASE : Nat := 2

/-- Default of env var AUDIO_WORKER_STUCK_TIMEOUT_MIN (audio_worker.py line 40). -/
def STUCK_JOB_TIMEOUT_MIN : Nat := 10

/-- The `status` column of `bcfy_calls_raw`: the worker's row state machine
(audio_worker.py docstring and spec section 4.2). -/
inductive Status where
  | pending
  | processing
  | completed
  | failed
deriving DecidableEq, Repr

/-- One row of `bcfy_calls_raw`, restricted to the columns the pipeline reads or
writes (get_calls.py lines 626-656, audio_worker.py lines 76-94, 106-111,
125-129, transcription_dispatcher.py lines 48-73). -/
structure CallRow where
  call_uid : Str
  url : Str
  playlist_uuid : Str
  started_at : Nat
  fetched_at : Nat
  tg_id : Nat
  duration_ms : Nat
  feed_id : Nat
  processed : Bool
  status : Status
  s3_key_v2 : Option Str
  error : Option Str
  picked_at : Option Nat
  last_attempt : Option Nat
deriving DecidableEq, Repr

/-- The `bcfy_calls_raw` table. -/
abbrev DB := List CallRow

/-- The WHERE clause of the stuck-job recovery UPDATE (audio_worker.py lines
55-56): `status = 'processing' AND picked_at < NOW() - INTERVAL 'T minutes'`.
A NULL `picked_at` compares as unknown in SQL, so such a row is not matched. -/
def stuckTimedOut (timeoutMin now : Nat) (r : CallRow) : Bool :=
  r.status == .processing &&
    match r.picked_at with
    | some t => t + timeoutMin < now
    | none => false

/-- `recover_stuck_jobs` (audio_worker.py lines 43-64): reset rows stuck in
`processing` for longer than the timeout back to `pending`, clearing
`picked_at`. -/
def recover_stuck_jobs (timeoutMin now : Nat) (db : DB) : DB :=
  db.map fun r =>
    if stuckTimedOut timeoutMin now r then
      { r with status := .pending, picked_at := none }
    else r

/-- The WHERE clause of the claim SELECT (audio_worker.py line 80):
`status = 'pending' AND error IS NULL`. -/
def claimEligible (r : CallRow) : Bool :=
  r.status == .pending && r.error == none

/-- `ORDER BY`: insertion of one row into a list sorted by `le`.  A structurally
recursive sort is used so that concrete tables evaluate; only that the result
is a permutation of its input matters to the claims (SQL leaves the order of
ties unspecified anyway). -/
def insertSorted {α : Type} (le : α → α → Bool) (r : α) : List α → List α
  | [] => [r]
  | x :: xs => if le r x then r :: x :: xs else x :: insertSorted le r xs

/-- `ORDER BY le`: insertion sort. -/
def sortBy {α : Type} (le : α → α → Bool) : List α → List α
  | [] => []
  | x :: xs => insertSorted le x (sortBy le xs)

/-- The claim SELECT (audio_worker.py lines 76-84): eligible rows, ordered by
`fetched_at ASC`, limited to the batch size.  `FOR UPDATE SKIP LOCKED` is part
of the atomicity of `claim_pending_batch`, not of the selected set. -/
def claimSelect (batchSize : Nat) (db : DB) : List CallRow :=
  (sortBy (fun a b => a.fetched_at ≤ b.fetched_at) (db.filter claimEligible)).take batchSize

/-- The claim UPDATE (audio_worker.py lines 90-94): set `status = 'processing'`
and `picked_at = NOW()` on the selected `call_uid`s. -/
def markProcessing (callUids : List Str) (now : Nat) (db : DB) : DB :=
  db.map fun r =>
    if callUids.contains r.call_uid then
      { r with status := .processing, picked_at := some now }
    else r

/-- `claim_pending_batch` (audio_worker.py lines 67-99) as one atomic
transaction: select up to a batch of eligible rows, mark them `processing`,
commit.  Returns the claimed rows (as read, before the update) and the
committed table. -/
def claim_pending_batch (batchSize now : Nat) (db : DB) : List CallRow × DB :=
  let calls := claimSelect batchSize db
  (calls, markProcessing (calls.map (·.call_uid)) now db)

/-- `mark_completed` (audio_worker.py lines 102-118): set `url`, `s3_key_v2`,
`processed = TRUE`, `status = 'completed'`, `last_attempt = NOW()` on the row
with the given `call_uid`.  Returns the updated table and the UPDATE's
affected-row count (`rows_affected`, line 112); the update is committed
regardless of that count — a mismatch is only logged (lines 113-114).
`completedRow` is the SET clause of the UPDATE (lines 108-109). -/
def completedRow (s3_uri s3_key : Str) (now : Nat) (r : CallRow) : CallRow :=
  { r with url := s3_uri, s3_key_v2 := some s3_key, processed := true,
           status := .completed, last_attempt := some now }

def mark_completed (call_uid s3_uri s3_key : Str) (now : Nat) (db : DB) : DB × Nat :=
  let db' := db.map fun r =>
    if r.call_uid == call_uid then completedRow s3_uri s3_key now r else r
  (db', db.countP fun r => r.call_uid == call_uid)

/-- `mark_failed` (audio_worker.py lines 121-131): set `error` to the message
truncated to 500 code points (`error_msg[:500]`, line 129), `status = 'failed'`
and `last_attempt = NOW()` on the row with the given `call_uid`. -/
def mark_failed (call_uid error_msg : Str) (now : Nat) (db : DB) : DB :=
  db.map fun r =>
    if r.call_uid == call_uid then
      { r with error := some (error_msg.take 500), status := .failed,
               last_attempt := some now }
    else r

/-- The result statuses of `quick_insert_call_metadata` (get_calls.py
lines 659-665). -/
inductive InsStatus where
  | inserted
  | duplicate
  | error
deriving DecidableEq, Repr

/-- The call-metadata dict one Broadcastify API `calls` entry provides
(get_calls.py lines 638-655), restricted to the fields that reach `CallRow`. -/
structure ApiCall where
  groupId : Str
  ts : Nat
  url : Str
  startTs : Nat
  endTs : Nat
  duration : Nat
  tgId : Nat
  feedId : Nat
deriving DecidableEq, Repr

/-- The call identifier `f"{call['groupId']}-{call['ts']}"` (get_calls.py
line 622). -/
def call_uid_of (c : ApiCall) : Str :=
  c.groupId ++ '-' :: (toString c.ts).toList

/-- The row the INSERT of `quick_insert_call_metadata` creates (get_calls.py
lines 626-656): `processed = FALSE`, `fetched_at = NOW()`, and the columns not
named by the INSERT take their schema defaults.  Modelled from the spec: the
`bcfy_calls_raw` schema itself (migration 005, not under src/) is absent; per
spec sections 3 and 4.2 a newly ingested row starts in the `pending` state with
`s3_key_v2`, `error`, `picked_at` and `last_attempt` NULL. -/
def newCallRow (now : Nat) (playlist_uuid : Str) (c : ApiCall) : CallRow where
  call_uid := call_uid_of c
  url := c.url
  playlist_uuid := playlist_uuid
  started_at := c.startTs
  fetched_at := now
  tg_id := c.tgId
  duration_ms := c.duration * 1000
  feed_id := c.feedId
  processed := false
  status := .pending
  s3_key_v2 := none
  error := none
  picked_at := none
  last_attempt := none

/-- `quick_insert_call_metadata` (get_calls.py lines 611-665):
`INSERT ... ON CONFLICT(call_uid) DO NOTHING RETURNING call_uid`.  The insert
reports `inserted` when `RETURNING` produced a row and `duplicate` when the
conflict clause skipped it; `error` only arises from a database exception,
which the table semantics do not produce. -/
def quick_insert_call_metadata (now : Nat) (playlist_uuid : Str) (c : ApiCall) (db : DB) :
    InsStatus × DB :=
  let uid := call_uid_of c
  if db.any fun r => r.call_uid == uid then
    (.duplicate, db)
  else
    (.inserted, db ++ [newCallRow now playlist_uuid c])

/-- The per-row function of `recover_stuck_jobs`. -/
def recoverRow (timeoutMin now : Nat) (r : CallRow) : CallRow :=
  if stuckTimedOut timeoutMin now r then
    { r with status := .pending, picked_at := none }
  else r

/-- A concrete API call entry for witnesses. -/
def sampleApiCall : ApiCall where
  groupId := String.toList ("g")
  ts := 7
  url := String.toList ("http://audio")
  startTs := 100
  endTs := 102
  duration := 2
  tgId := 5
  feedId := 3

/-- Default of env var AUDIO_SAMPLE_RATE (get_calls.py line 55). -/
def AUDIO_SR : Nat := 16000

/-- The signal metrics `analyze_audio_enhanced` extracts from a loadable file
(get_calls.py lines 174-186).  The librosa/numpy floating-point computations
(RMS, spectral centroid, percentiles, log-scale SNR) are abstracted to rational
inputs; the quality score derived from the SNR estimate is computed exactly. -/
structure RawAudioMetrics where
  rms : ℚ
  spectral_centroid : ℚ
  noise_floor : ℚ
  dynamic_range : ℚ
  zero_crossing_rate : ℚ
  snr_estimate : ℚ
deriving DecidableEq, Repr

/-- The analysis dict `analyze_audio_enhanced` returns (get_calls.py
lines 189-197). -/
structure Analysis where
  quality_score : ℚ
  snr_estimate : ℚ
  rms : ℚ
  spectral_centroid : ℚ
  noise_floor : ℚ
  dynamic_range : ℚ
  zero_crossing_rate : ℚ
deriving DecidableEq, Repr

/-- `analyze_audio_enhanced` (get_calls.py lines 171-209).  `loadResult` is
`none` when `librosa.load` (or any metric computation) raises: the except
branch catches the exception and returns fixed default values for unknown
quality — quality score 50, SNR 10, RMS -20, centroid 3000, noise floor 0.002,
dynamic range 0.1, zero-crossing rate 0.1 (lines 198-209).  On success the
quality score is `min(100, max(0, (snr + 10) * 5))` (line 187). -/
def analyze_audio_enhanced (loadResult : Option RawAudioMetrics) : Analysis :=
  match loadResult with
  | some m =>
    { quality_score := min 100 (max 0 ((m.snr_estimate + 10) * 5))
      snr_estimate := m.snr_estimate
      rms := m.rms
      spectral_centroid := m.spectral_centroid
      noise_floor := m.noise_floor
      dynamic_range := m.dynamic_range
      zero_crossing_rate := m.zero_crossing_rate }
  | none =>
    { quality_score := 50
      snr_estimate := 10
      rms := -20
      spectral_centroid := 3000
      noise_floor := 1 / 500
      dynamic_range := 1 / 10
      zero_crossing_rate := 1 / 10 }

/-- `build_tier1_filters` (get_calls.py lines 217-229): light chain for clean
audio.  `AUDIO_TARGET_DB` is the Python float -20.0, rendered as `-20.0` in the
loudnorm f-string. -/
def build_tier1_filters (_analysis : Analysis) : List String :=
  ["highpass=f=300:poles=2",
   "lowpass=f=3400:poles=2",
   "afftdn=nf=-20:nt=w",
   "speechnorm=peak=0.95:expansion=2:compression=2",
   "loudnorm=I=-20.0:LRA=11:TP=-1.5"]

/-- `build_tier2_filters` (get_calls.py lines 231-247): moderate chain. -/
def build_tier2_filters (_analysis : Analysis) : List String :=
  ["adeclick=threshold=0.1",
   "highpass=f=300:poles=2",
   "afwtdn=percent=75:profile=true:adaptive=true",
   "afftdn=nf=-23:nt=w",
   "lowpass=f=3400:poles=2",
   "equalizer=f=1000:width_type=o:width=1.5:g=3",
   "speechnorm=peak=0.95:expansion=2:compression=2",
   "agate=threshold=0.02:release=100",
   "loudnorm=I=-20.0:LRA=11:TP=-1.5"]

/-- `build_tier3_filters` (get_calls.py lines 249-267): aggressive chain. -/
def build_tier3_filters (_analysis : Analysis) : List String :=
  ["adeclick=threshold=0.1",
   "highpass=f=300:poles=2",
   "afwtdn=percent=85:profile=true:adaptive=true:softness=2",
   "afftdn=nf=-25:nt=w:tn=true",
   "anlmdn=s=0.00005:p=0.002:r=0.006:m=15",
   "lowpass=f=3400:poles=2",
   "equalizer=f=1000:width_type=o:width=1.5:g=4",
   "acompressor=threshold=-24dB:ratio=4:attack=5:release=50:makeup=auto",
   "speechnorm=peak=0.95:expansion=3:compression=3",
   "agate=threshold=0.03:release=80",
   "loudnorm=I=-20.0:LRA=11:TP=-1.5"]

/-- `build_fallback_command` (get_calls.py lines 269-278): the minimal fixed
normalization command used when building the adaptive command fails. -/
def build_fallback_command (input_path output_path : String) : List String :=
  ["ffmpeg", "-hide_banner", "-loglevel", "warning", "-y",
   "-i", input_path,
   "-ac", "1", "-ar", toString AUDIO_SR, "-c:a", "pcm_s16le",
   "-filter:a", "loudnorm=I=-20.0:LRA=11:TP=-1.5,afftdn=nf=-20",
   output_path]

/-- The tier selection of `build_ffmpeg_command` (get_calls.py lines 296-305):
score > 70 -> tier 1, 40 < score <= 70 -> tier 2, otherwise tier 3. -/
def selectFilters (analysis : Analysis) : List String :=
  if analysis.quality_score > 70 then build_tier1_filters analysis
  else if analysis.quality_score > 40 then build_tier2_filters analysis
  else build_tier3_filters analysis

/-- `build_ffmpeg_command` (get_calls.py lines 280-324).  `builderFailed` is
true when the try-block itself raises (line 321's except path; not reachable
through a failed audio analysis, which `analyze_audio_enhanced` already catches
internally): then the fallback command is returned with `analysis = None`. -/
def build_ffmpeg_command (loadResult : Option RawAudioMetrics) (builderFailed : Bool)
    (input_path output_path : String) : List String × Option Analysis :=
  if builderFailed then
    (build_fallback_command input_path output_path, none)
  else
    let analysis := analyze_audio_enhanced loadResult
    let filters := selectFilters analysis
    (["ffmpeg", "-hide_banner", "-loglevel", "warning", "-y",
      "-i", input_path,
      "-ac", "1", "-ar", toString AUDIO_SR, "-c:a", "pcm_s16le",
      "-filter:a", String.intercalate "," filters,
      output_path], some analysis)

/-- An analysis record carrying a given quality score (the remaining metrics do
not influence tier selection). -/
def analysisWithScore (q : ℚ) : Analysis where
  quality_score := q
  snr_estimate := 0
  rms := 0
  spectral_centroid := 0
  noise_floor := 0
  dynamic_range := 0
  zero_crossing_rate := 0

/-- What one `store_audio` call produces for the retry loop (audio_worker.py
line 169): the `(s3_key, s3_uri)` pair on success, or the raised exception's
type name (`type(e).__name__`) and message (`str(e)`) on failure. -/
inductive StoreOutcome where
  | ok (s3_key s3_uri : Str)
  | err (ty msg : Str)
deriving DecidableEq, Repr

/-- State of the per-call retry loop of `process_pending_audio`
(audio_worker.py lines 164-186) after it finishes: how many attempts ran,
the successful attempt's `(s3_key, s3_uri)` if any, the Python `last_error`
variable, and the backoff sleeps performed between attempts. -/
structure AttemptsResult where
  attemptsMade : Nat
  outcome : Option (Str × Str)
  lastError : Option (Str × Str)
  backoffs : List Nat
deriving DecidableEq, Repr

/-- The retry loop `for attempt in range(MAX_RETRIES + 1)` (audio_worker.py
lines 167-186): run `store_audio`, break on success, otherwise record the
error and — when attempts remain — sleep `RETRY_BACKOFF_BASE ** attempt`
seconds and retry.  `os` lists the outcomes the successive attempts would
produce; it is passed with length `MAX_RETRIES + 1`. -/
def runAttempts (base attempt : Nat) : List StoreOutcome → AttemptsResult
  | [] => ⟨0, none, none, []⟩
  | .ok k u :: _ => ⟨1, some (k, u), none, []⟩
  | [.err ty msg] => ⟨1, none, some (ty, msg), []⟩
  | .err ty msg :: r :: rs =>
    let res := runAttempts base (attempt + 1) (r :: rs)
    ⟨res.attemptsMade + 1, res.outcome,
      match res.lastError with
      | some e => some e
      | none => some (ty, msg),
      base ^ attempt :: res.backoffs⟩

/-- The outcome sequence the loop's `MAX_RETRIES + 1` iterations would see. -/
def outcomesList (maxRetries : Nat) (outcomes : Nat → StoreOutcome) : List StoreOutcome :=
  (List.range (maxRetries + 1)).map outcomes

/-- `str(e).split('s3://')[0]` when `'s3://' in str(e)`, else `str(e)`
(audio_worker.py line 189): the part of the message before the first
occurrence of the separator. -/
def cutBeforeSub (sep : Str) : Str → Str
  | [] => []
  | c :: rest => if sep.isPrefixOf (c :: rest) then [] else c :: cutBeforeSub sep rest

/-- Python `str.strip()`: drop whitespace from both ends. -/
def pyStrip (s : Str) : Str :=
  ((s.dropWhile Char.isWhitespace).reverse.dropWhile Char.isWhitespace).reverse

/-- `clean_error = f"{error_type}: {error_msg.strip()}"` (audio_worker.py
lines 189-191): the exception's type name, a colon-space, and the stripped
message with any `s3://...` tail cut off. -/
def clean_error (ty msg : Str) : Str :=
  ty ++ ':' :: ' ' :: pyStrip (cutBeforeSub (String.toList ("s3://")) msg)

/-- One claimed call's processing in `process_pending_audio` (audio_worker.py
lines 152-193): run the retry loop; on success call
`mark_completed(call_uid, s3_uri, s3_key)`, on exhaustion with a recorded
error call `mark_failed(call_uid, clean_error)`. -/
def process_one_call (maxRetries base now : Nat) (uid : Str)
    (outcomes : Nat → StoreOutcome) (db : DB) : DB :=
  let res := runAttempts base 0 (outcomesList maxRetries outcomes)
  match res.outcome with
  | some (k, u) => (mark_completed uid u k now db).1
  | none =>
    match res.lastError with
    | some (ty, msg) => mark_failed uid (clean_error ty msg) now db
    | none => db

/-- The two scratch files `store_audio` works with (get_calls.py lines
544-545): `TEMP_DIR/{call_uid}.mp3` and the `.wav` produced from it. -/
structure TempFiles where
  mp3Exists : Bool
  wavExists : Bool
deriving DecidableEq, Repr

/-- How one `convert_to_wav` run ends (get_calls.py lines 383-464). -/
inductive ConvOutcome where
  | converted
  | ffmpegFailed
  | timedOut
  | invalidOutput
deriving DecidableEq, Repr

/-- File effects of `convert_to_wav` (get_calls.py lines 419-464): on success
the wav exists and the source mp3 is deleted (line 450); on an ffmpeg error,
timeout or validation failure the partial wav is removed before re-raising
(lines 436-437, 455-456, 462-463).  The Bool reports success, i.e. whether
`store_audio`'s `wav_path` gets assigned. -/
def convert_to_wav_files (o : ConvOutcome) (files : TempFiles) : TempFiles × Bool :=
  match o with
  | .converted => (⟨false, true⟩, true)
  | .ffmpegFailed => ({ files with wavExists := false }, false)
  | .timedOut => ({ files with wavExists := false }, false)
  | .invalidOutput => ({ files with wavExists := false }, false)

/-- The `finally` block of `store_audio` (get_calls.py lines 599-606): remove
`mp3_path`, and `wav_path` when it was assigned; when `convert_to_wav` raised,
`wav_path` is still None so the block does not touch the wav — its absence
relies on `convert_to_wav`'s own error-path cleanup. -/
def cleanupTempFiles (files : TempFiles) (wavAssigned : Bool) : TempFiles :=
  { mp3Exists := false
    wavExists := if wavAssigned then false else files.wavExists }

/-- File effects of one whole `store_audio` attempt (get_calls.py lines
529-606): the mp3 is written only when the download returns HTTP 200; then
conversion runs, then the upload (which touches no temp file), and the
`finally` cleanup runs on every exit path. -/
def store_audio_files (downloadOk : Bool) (conv : ConvOutcome) (_uploadOk : Bool) : TempFiles :=
  if downloadOk then
    let c := convert_to_wav_files conv ⟨true, false⟩
    cleanupTempFiles c.1 c.2
  else
    cleanupTempFiles ⟨false, false⟩ false

/-- A row carrying a non-null error, for the C8 counterexample. -/
def c8Row : CallRow where
  call_uid := String.toList ("a")
  url := []
  playlist_uuid := []
  started_at := 0
  fetched_at := 0
  tg_id := 0
  duration_ms := 0
  feed_id := 0
  processed := false
  status := .pending
  s3_key_v2 := none
  error := some (String.toList ("boom"))
  picked_at := none
  last_attempt := none

/-- One mutation of `bcfy_calls_raw` by the pipeline: the poller's idempotent
insert (get_calls.py), and the worker's recovery sweep, claim transaction,
completion and failure updates (audio_worker.py).  The dispatcher only reads
this table.  Timestamps and arguments are arbitrary: the relation covers every
schedule of the components. -/
inductive PipelineStep : DB → DB → Prop where
  | insert (now : Nat) (pl : Str) (c : ApiCall) (db : DB) :
      PipelineStep db (quick_insert_call_metadata now pl c db).2
  | recover (timeoutMin now : Nat) (db : DB) :
      PipelineStep db (recover_stuck_jobs timeoutMin now db)
  | claim (batchSize now : Nat) (db : DB) :
      PipelineStep db (claim_pending_batch batchSize now db).2
  | complete (uid uri key : Str) (now : Nat) (db : DB) :
      PipelineStep db (mark_completed uid uri key now db).1
  | fail (uid msg : Str) (now : Nat) (db : DB) :
      PipelineStep db (mark_failed uid msg now db)

/-- A table state the pipeline can reach from the empty table. -/
def Reachable (db : DB) : Prop := Relation.ReflTransGen PipelineStep [] db

/-- Invariant of C2: `processed = true` implies the storage key is set. -/
def ProcessedHasKey (db : DB) : Prop :=
  ∀ r ∈ db, r.processed = true → r.s3_key_v2 ≠ none

/-- The C10 invariant: some row carries this `call_uid`, and every row carrying
it has a non-null `error` — as `mark_failed` leaves it. -/
def FailedLocked (uid : Str) (db : DB) : Prop :=
  (∃ r ∈ db, r.call_uid = uid) ∧ ∀ r ∈ db, r.call_uid = uid → r.error ≠ none

/-- A single claimable row for the C1 witness. -/
def c1Row : CallRow where
  call_uid := String.toList ("w")
  url := []
  playlist_uuid := []
  started_at := 0
  fetched_at := 0
  tg_id := 0
  duration_ms := 0
  feed_id := 0
  processed := false
  status := .pending
  s3_key_v2 := none
  error := none
  picked_at := none
  last_attempt := none

/-- The `i`-th of 41 claimable rows for the C1 counterexample. -/
def cexRow (i : Nat) : CallRow where
  call_uid := (toString i).toList
  url := []
  playlist_uuid := []
  started_at := 0
  fetched_at := i
  tg_id := 0
  duration_ms := 0
  feed_id := 0
  processed := false
  status := .pending
  s3_key_v2 := none
  error := none
  picked_at := none
  last_attempt := none

/-- A table of 41 pending rows: one more than two batches of `BATCH_SIZE = 20`
can claim. -/
def cexDB : DB := (List.range 41).map cexRow

/-- The `status` column of `processing_state` (spec section 3; values used by
the dispatcher's query, transcription_dispatcher.py lines 66-70 and 119-124). -/
inductive PStatus where
  | queued
  | downloaded
  | transcribed
  | indexed
  | error
deriving DecidableEq, Repr

/-- One row of `processing_state`
(transcription_dispatcher.py lines 55-56, 59, 68). -/
structure ProcessingStateRow where
  call_uid : Str
  status : PStatus
  retry_count : Option Nat
  max_retries : Option Nat
deriving DecidableEq, Repr

/-- One row of `transcripts`; `id` is its non-null primary key, whose NULLness
after the LEFT JOIN signals a missing transcript
(transcription_dispatcher.py lines 58, 64). -/
structure TranscriptRow where
  id : Nat
  call_uid : Str
deriving DecidableEq, Repr

/-- The LEFT JOIN on `processing_state` (line 59): the row matching the call,
if any (`call_uid` is unique in `processing_state`). -/
def psLookup (ps : List ProcessingStateRow) (uid : Str) : Option ProcessingStateRow :=
  ps.find? fun p => p.call_uid == uid

/-- `t.id IS NULL` fails iff some transcript row joins (lines 58, 64). -/
def hasTranscript (ts : List TranscriptRow) (uid : Str) : Bool :=
  ts.any fun t => t.call_uid == uid

/-- The WHERE clause of `get_pending_transcriptions`
(transcription_dispatcher.py lines 60-70): `processed = TRUE`, storage key set,
no ingestion error, no transcript, started after the cutoff, and the
processing-state is absent, or `error` with retries left, or in no terminal
state. -/
def transcriptionEligible (cutoff : Nat) (ts : List TranscriptRow)
    (ps : List ProcessingStateRow) (c : CallRow) : Bool :=
  c.processed && c.s3_key_v2.isSome && c.error == none &&
  !(hasTranscript ts c.call_uid) && decide (cutoff < c.started_at) &&
  (match psLookup ps c.call_uid with
   | none => true
   | some p =>
     (p.status == .error && decide (p.retry_count.getD 0 < p.max_retries.getD 3)) ||
     !([PStatus.transcribed, PStatus.indexed, PStatus.error].contains p.status))

/-- `get_pending_transcriptions` (transcription_dispatcher.py lines 35-75):
eligible calls, `ORDER BY started_at DESC`, `LIMIT batch_size`. -/
def get_pending_transcriptions (batchSize cutoff : Nat) (calls : DB)
    (ts : List TranscriptRow) (ps : List ProcessingStateRow) : List CallRow :=
  (sortBy (fun a b => b.started_at ≤ a.started_at)
    (calls.filter (transcriptionEligible cutoff ts ps))).take batchSize

/-- A call the dispatcher should select, for the C9 witness. -/
def c9Good : CallRow where
  call_uid := String.toList ("g")
  url := []
  playlist_uuid := []
  started_at := 5
  fetched_at := 0
  tg_id := 0
  duration_ms := 0
  feed_id := 0
  processed := true
  status := .completed
  s3_key_v2 := some (String.toList ("k"))
  error := none
  picked_at := none
  last_attempt := none

/-- A call already transcribed, for the C9 witness. -/
def c9Done : CallRow where
  call_uid := String.toList ("b")
  url := []
  playlist_uuid := []
  started_at := 6
  fetched_at := 0
  tg_id := 0
  duration_ms := 0
  feed_id := 0
  processed := true
  status := .completed
  s3_key_v2 := some (String.toList ("k"))
  error := none
  picked_at := none
  last_attempt := none

/-- The processing-state row marking `c9Done` transcribed. -/
def c9PS : ProcessingStateRow where
  call_uid := String.toList ("b")
  status := .transcribed
  retry_count := none
  max_retries := none

/- Helper lemmas -/

lemma insertSorted_perm {α : Type} (le : α → α → Bool) (r : α) :
    ∀ l : List α, List.Perm (insertSorted le r l) (r :: l)
  | [] => List.Perm.refl _
  | x :: xs => by
    unfold insertSorted
    by_cases h : le r x = true
    · rw [if_pos h]
    · rw [if_neg h]
      exact (List.Perm.cons x (insertSorted_perm le r xs)).trans (List.Perm.swap r x xs)

lemma sortBy_perm {α : Type} (le : α → α → Bool) :
    ∀ l : List α, List.Perm (sortBy le l) l
  | [] => List.Perm.refl _
  | x :: xs => (insertSorted_perm le x (sortBy le xs)).trans
      (List.Perm.cons x (sortBy_perm le xs))

lemma forall₂_map_self {α : Type _} (f : α → α) (P : α → α → Prop) (h : ∀ a, P a (f a)) :
    ∀ l : List α, List.Forall₂ P l (l.map f)
  | [] => .nil
  | a :: t => .cons (h a) (forall₂_map_self f P h t)

lemma stuckTimedOut_iff (timeoutMin now : Nat) (r : CallRow) :
    stuckTimedOut timeoutMin now r = true ↔
      (r.status = .processing ∧ ∃ t, r.picked_at = some t ∧ t + timeoutMin < now) := by
  unfold stuckTimedOut
  cases hp : r.picked_at <;> simp [hp]

lemma recover_stuck_jobs_eq_map (timeoutMin now : Nat) (db : DB) :
    recover_stuck_jobs timeoutMin now db = db.map (recoverRow timeoutMin now) := rfl

lemma recoverRow_idem (timeoutMin now : Nat) (r : CallRow) :
    recoverRow timeoutMin now (recoverRow timeoutMin now r) = recoverRow timeoutMin now r := by
  unfold recoverRow
  by_cases h : stuckTimedOut timeoutMin now r = true
  · simp only [h, if_true]
    have : stuckTimedOut timeoutMin now { r with status := .pending, picked_at := none } = false := by
      simp [stuckTimedOut]
    simp [this]
  · simp [h]

/-- C4: a `processing` row whose `picked_at` is older than the stuck timeout is
reset by one run of `recover_stuck_jobs` to `pending` with `picked_at` cleared
to NULL; every other row — `processing` for less than the timeout, or in
another state — is unchanged; and a second run of the sweep on the resulting
state changes nothing. -/
theorem claim_C4_stuck_recovery (timeoutMin now : Nat) (db : DB) :
    List.Forall₂ (fun r r' =>
      ((r.status = .processing ∧ ∃ t, r.picked_at = some t ∧ t + timeoutMin < now) →
        r' = { r with status := .pending, picked_at := none }) ∧
      (¬ (r.status = .processing ∧ ∃ t, r.picked_at = some t ∧ t + timeoutMin < now) →
        r' = r))
      db (recover_stuck_jobs timeoutMin now db) ∧
    recover_stuck_jobs timeoutMin now (recover_stuck_jobs timeoutMin now db)
      = recover_stuck_jobs timeoutMin now db := by
  constructor
  · rw [recover_stuck_jobs_eq_map]
    refine forall₂_map_self _ _ (fun r => ?_) db
    constructor
    · intro hstuck
      have hb : stuckTimedOut timeoutMin now r = true := (stuckTimedOut_iff _ _ _).2 hstuck
      simp [recoverRow, hb]
    · intro hnot
      have hb : stuckTimedOut timeoutMin now r = false := by
        rcases Bool.eq_false_or_eq_true (stuckTimedOut timeoutMin now r) with h | h
        · exact absurd ((stuckTimedOut_iff _ _ _).1 h) hnot
        · exact h
      simp [recoverRow, hb]
  · rw [recover_stuck_jobs_eq_map, recover_stuck_jobs_eq_map, List.map_map]
    exact List.map_congr_left fun r _ => recoverRow_idem timeoutMin now r

/-- C3: inserting the same call identifier twice leaves exactly one row for that
identifier in the table, and the second insert reports `duplicate`, not `error`.
The hypothesis is the table's UNIQUE(call_uid) constraint: at most one row for
the identifier before the two inserts run. -/
theorem claim_C3_duplicate_insert (now₁ now₂ : Nat) (pl₁ pl₂ : Str) (c : ApiCall) (db : DB)
    (h : db.countP (fun r => r.call_uid == call_uid_of c) ≤ 1) :
    (quick_insert_call_metadata now₂ pl₂ c
        (quick_insert_call_metadata now₁ pl₁ c db).2).2.countP
      (fun r => r.call_uid == call_uid_of c) = 1 ∧
    (quick_insert_call_metadata now₂ pl₂ c
        (quick_insert_call_metadata now₁ pl₁ c db).2).1 = .duplicate ∧
    (quick_insert_call_metadata now₂ pl₂ c
        (quick_insert_call_metadata now₁ pl₁ c db).2).1 ≠ .error := by
  by_cases hany : (db.any fun r => r.call_uid == call_uid_of c) = true
  · have hpos : 0 < db.countP fun r => r.call_uid == call_uid_of c := by
      rcases List.any_eq_true.1 hany with ⟨r, hr, hp⟩
      exact List.countP_pos_iff.2 ⟨r, hr, hp⟩
    simp only [quick_insert_call_metadata, hany, if_true]
    refine ⟨by omega, by simp, by simp⟩
  · have hzero : (db.countP fun r => r.call_uid == call_uid_of c) = 0 := by
      refine List.countP_eq_zero.2 fun r hr => ?_
      intro hp
      exact hany (List.any_eq_true.2 ⟨r, hr, hp⟩)
    have hnew : ((newCallRow now₁ pl₁ c).call_uid == call_uid_of c) = true := by
      simp [newCallRow]
    have hany₂ : ((db ++ [newCallRow now₁ pl₁ c]).any
        fun r => r.call_uid == call_uid_of c) = true := by
      refine List.any_eq_true.2 ⟨newCallRow now₁ pl₁ c, ?_, hnew⟩
      simp
    simp only [quick_insert_call_metadata, hany, if_false, Bool.false_eq_true, hany₂, if_true]
    refine ⟨?_, by simp, by simp⟩
    rw [List.countP_append, hzero]
    simp [hnew]

/-- Witness for C3: both inserts run on the empty table; the second reports
`duplicate` and one row remains. -/
theorem claim_C3_witness :
    (quick_insert_call_metadata 2 [] sampleApiCall
        (quick_insert_call_metadata 1 [] sampleApiCall ([] : DB)).2).2.countP
      (fun r => r.call_uid == call_uid_of sampleApiCall) = 1 ∧
    (quick_insert_call_metadata 2 [] sampleApiCall
        (quick_insert_call_metadata 1 [] sampleApiCall ([] : DB)).2).1 = .duplicate ∧
    (quick_insert_call_metadata 2 [] sampleApiCall
        (quick_insert_call_metadata 1 [] sampleApiCall ([] : DB)).2).1 ≠ .error :=
  claim_C3_duplicate_insert 1 2 [] [] sampleApiCall [] (by decide)

/-- C6: tier selection by thresholds — the light chain iff score > 70, the
moderate chain iff 40 < score <= 70, the aggressive chain iff score <= 40 —
and the three chains have strictly increasing filter counts; in particular
scores 80, 55, 25 select chains of strictly increasing length. -/
theorem claim_C6_tier_selection :
    (∀ a : Analysis,
      (selectFilters a = build_tier1_filters a ↔ 70 < a.quality_score) ∧
      (selectFilters a = build_tier2_filters a ↔
        (40 < a.quality_score ∧ a.quality_score ≤ 70)) ∧
      (selectFilters a = build_tier3_filters a ↔ a.quality_score ≤ 40)) ∧
    (∀ a : Analysis,
      (build_tier1_filters a).length < (build_tier2_filters a).length ∧
      (build_tier2_filters a).length < (build_tier3_filters a).length) ∧
    ((selectFilters (analysisWithScore 80)).length <
        (selectFilters (analysisWithScore 55)).length ∧
      (selectFilters (analysisWithScore 55)).length <
        (selectFilters (analysisWithScore 25)).length) := by
  have len1 : ∀ a : Analysis, (build_tier1_filters a).length = 5 := fun _ => rfl
  have len2 : ∀ a : Analysis, (build_tier2_filters a).length = 9 := fun _ => rfl
  have len3 : ∀ a : Analysis, (build_tier3_filters a).length = 11 := fun _ => rfl
  refine ⟨fun a => ?_,
    fun a => ⟨by rw [len1 a, len2 a]; decide, by rw [len2 a, len3 a]; decide⟩, by decide⟩
  have h12 : build_tier1_filters a ≠ build_tier2_filters a := fun h => by
    have hl := congrArg List.length h
    rw [len1 a, len2 a] at hl
    exact absurd hl (by decide)
  have h13 : build_tier1_filters a ≠ build_tier3_filters a := fun h => by
    have hl := congrArg List.length h
    rw [len1 a, len3 a] at hl
    exact absurd hl (by decide)
  have h23 : build_tier2_filters a ≠ build_tier3_filters a := fun h => by
    have hl := congrArg List.length h
    rw [len2 a, len3 a] at hl
    exact absurd hl (by decide)
  by_cases h70 : 70 < a.quality_score
  · have hsel : selectFilters a = build_tier1_filters a := by
      simp [selectFilters, h70]
    refine ⟨⟨fun _ => h70, fun _ => hsel⟩, ?_, ?_⟩
    · constructor
      · intro he
        exact absurd (hsel.symm.trans he) h12
      · intro hq
        exact absurd h70 (not_lt.2 hq.2)
    · constructor
      · intro he
        exact absurd (hsel.symm.trans he) h13
      · intro hq
        exact absurd h70 (not_lt.2 (hq.trans (by norm_num)))
  · by_cases h40 : 40 < a.quality_score
    · have hsel : selectFilters a = build_tier2_filters a := by
        simp [selectFilters, h70, h40]
      refine ⟨?_, ⟨fun _ => ⟨h40, not_lt.1 h70⟩, fun _ => hsel⟩, ?_⟩
      · constructor
        · intro he
          exact absurd (he.symm.trans hsel) h12
        · intro hq
          exact absurd hq h70
      · constructor
        · intro he
          exact absurd (hsel.symm.trans he) h23
        · intro hq
          exact absurd h40 (not_lt.2 hq)
    · have hsel : selectFilters a = build_tier3_filters a := by
        simp [selectFilters, h70, h40]
      refine ⟨?_, ?_, ⟨fun _ => not_lt.1 h40, fun _ => hsel⟩⟩
      · constructor
        · intro he
          exact absurd (he.symm.trans hsel) h13
        · intro hq
          exact absurd hq h70
      · constructor
        · intro he
          exact absurd (he.symm.trans hsel) h23
        · intro hq
          exact absurd hq.1 h40

set_option maxRecDepth 8000 in
/-- C7 (amended): when audio quality analysis fails, `analyze_audio_enhanced`
catches the exception itself and returns default metrics with quality score 50,
so `build_ffmpeg_command` selects the moderate tier-2 chain — not the minimal
fallback chain — and the call's processing is not aborted (a full command is
still returned).  The fallback command is produced only when the command
builder's own try-block fails. -/
theorem claim_C7_analysis_failure (input_path output_path : String) :
    (analyze_audio_enhanced none).quality_score = 50 ∧
    selectFilters (analyze_audio_enhanced none)
      = build_tier2_filters (analyze_audio_enhanced none) ∧
    (build_ffmpeg_command none false input_path output_path).1.get? 14
      = some (String.intercalate ","
          (build_tier2_filters (analyze_audio_enhanced none))) ∧
    (build_ffmpeg_command none false input_path output_path).1
      ≠ build_fallback_command input_path output_path ∧
    (build_ffmpeg_command none false input_path output_path).2
      = some (analyze_audio_enhanced none) ∧
    (build_ffmpeg_command none true input_path output_path).1
      = build_fallback_command input_path output_path := by
  refine ⟨by decide, by decide, rfl, ?_, rfl, rfl⟩
  intro h
  have h14 := congrArg (fun l => l.get? 14) h
  simp only [build_ffmpeg_command, build_fallback_command, if_false] at h14
  have : selectFilters (analyze_audio_enhanced none)
      = build_tier2_filters (analyze_audio_enhanced none) := by decide
  rw [this] at h14
  exact absurd (Option.some.inj h14) (by decide)

set_option maxRecDepth 8000 in
/-- Counterexample to C7 as stated: on an input whose quality analysis fails,
the built command is not the fallback command — its filter argument is the
tier-2 chain. -/
theorem claim_C7_counterexample :
    (build_ffmpeg_command none false ("in.mp3") ("out.wav")).1
      ≠ build_fallback_command ("in.mp3") ("out.wav") ∧
    (build_ffmpeg_command none false ("in.mp3") ("out.wav")).1.get? 14
      = some (String.intercalate ","
          (build_tier2_filters (analyze_audio_enhanced none))) := by
  constructor
  · intro h
    have h14 := congrArg (fun l => l.get? 14) h
    exact absurd h14 (by decide)
  · decide

lemma runAttempts_all_err (base : Nat) (os : List StoreOutcome) :
    ∀ (attempt : Nat), (∀ o ∈ os, ∀ k u, o ≠ StoreOutcome.ok k u) →
      (runAttempts base attempt os).attemptsMade = os.length ∧
      (runAttempts base attempt os).outcome = none ∧
      (runAttempts base attempt os).backoffs
        = (List.range (os.length - 1)).map (fun i => base ^ (attempt + i)) ∧
      (os = [] ∨ ∃ ty msg, os.getLast? = some (.err ty msg) ∧
        (runAttempts base attempt os).lastError = some (ty, msg)) := by
  induction os with
  | nil => exact fun attempt _ => ⟨rfl, rfl, rfl, Or.inl rfl⟩
  | cons o rest ih =>
    intro attempt h
    cases o with
    | ok k u => exact absurd rfl (h _ (List.mem_cons_self _ _) k u)
    | err ty msg =>
      cases rest with
      | nil => exact ⟨rfl, rfl, rfl, Or.inr ⟨ty, msg, rfl, rfl⟩⟩
      | cons r rs =>
        have hrest : ∀ o ∈ r :: rs, ∀ k u, o ≠ StoreOutcome.ok k u :=
          fun o ho k u => h o (List.mem_cons_of_mem _ ho) k u
        obtain ⟨ha, ho, hb, hl⟩ := ih (attempt + 1) hrest
        rcases hl with hnil | ⟨ty', msg', hg, hle⟩
        · exact absurd hnil (List.cons_ne_nil r rs)
        refine ⟨?_, ?_, ?_, ?_⟩
        · simp only [runAttempts, ha, List.length_cons]
        · simp only [runAttempts, ho]
        · simp only [runAttempts, hb, List.length_cons, Nat.add_sub_cancel]
          rw [List.range_succ_eq_map, List.map_cons, List.map_map]
          refine congrArg₂ List.cons (by rw [Nat.add_zero]) ?_
          refine List.map_congr_left fun i _ => ?_
          exact congrArg (base ^ ·) (by omega)
        · refine Or.inr ⟨ty', msg', ?_, ?_⟩
          · rw [List.getLast?_cons_cons]
            exact hg
          · simp only [runAttempts, hle]

lemma runAttempts_ok_mem (base : Nat) (os : List StoreOutcome) :
    ∀ (attempt : Nat) (k u : Str),
      (runAttempts base attempt os).outcome = some (k, u) → StoreOutcome.ok k u ∈ os := by
  induction os with
  | nil => intro attempt k u h; exact absurd h (by simp [runAttempts])
  | cons o rest ih =>
    intro attempt k u h
    cases o with
    | ok k' u' =>
      have : (k', u') = (k, u) := by
        simpa [runAttempts] using h
      rw [show StoreOutcome.ok k u = StoreOutcome.ok k' u' by
        rw [Prod.mk.injEq] at this
        rw [this.1, this.2]]
      exact List.mem_cons_self _ _
    | err ty msg =>
      cases rest with
      | nil => exact absurd h (by simp [runAttempts])
      | cons r rs =>
        have h' : (runAttempts base (attempt + 1) (r :: rs)).outcome = some (k, u) := by
          simpa [runAttempts] using h
        exact List.mem_cons_of_mem _ (ih (attempt + 1) k u h')

/-- C5: when every attempt for a claimed call fails, the worker makes exactly
`MAX_RETRIES + 1` attempts (3 under the default configuration
`MAX_RETRIES = 2`, i.e. an attempt budget of 3), sleeping exponentially growing
backoffs between them, and then marks the row `failed` with an error message
that is the type-prefixed cleaned message truncated to at most 500 code points
and non-empty (the exception type name is never empty); every `store_audio`
attempt, on any outcome, leaves no temp file behind. -/
theorem claim_C5_retry_exhaustion (maxRetries base now : Nat) (uid : Str)
    (tys msgs : Nat → Str) (db : DB) :
    (runAttempts base 0
        (outcomesList maxRetries fun i => .err (tys i) (msgs i))).attemptsMade
      = maxRetries + 1 ∧
    MAX_RETRIES + 1 = 3 ∧
    (runAttempts base 0
        (outcomesList maxRetries fun i => .err (tys i) (msgs i))).outcome = none ∧
    (runAttempts base 0
        (outcomesList maxRetries fun i => .err (tys i) (msgs i))).backoffs
      = (List.range maxRetries).map (fun i => base ^ i) ∧
    (∀ r' ∈ process_one_call maxRetries base now uid
        (fun i => .err (tys i) (msgs i)) db,
      r'.call_uid = uid →
        r'.status = .failed ∧
        r'.error = some ((clean_error (tys maxRetries) (msgs maxRetries)).take 500) ∧
        (∀ e, r'.error = some e →
          e.length ≤ 500 ∧
          (tys maxRetries ≠ [] → e ≠ []) ∧
          (tys maxRetries).take 500 <+: e)) ∧
    (∀ (downloadOk : Bool) (conv : ConvOutcome) (uploadOk : Bool),
      store_audio_files downloadOk conv uploadOk = ⟨false, false⟩) := by
  have hall : ∀ o ∈ outcomesList maxRetries (fun i => .err (tys i) (msgs i)),
      ∀ k u, o ≠ StoreOutcome.ok k u := by
    intro o ho k u
    rcases List.mem_map.1 ho with ⟨i, _, rfl⟩
    exact fun hc => nomatch hc
  have hlen : (outcomesList maxRetries (fun i => .err (tys i) (msgs i))).length
      = maxRetries + 1 := by
    simp [outcomesList]
  have hlast : (outcomesList maxRetries (fun i => .err (tys i) (msgs i))).getLast?
      = some (.err (tys maxRetries) (msgs maxRetries)) := by
    unfold outcomesList
    rw [List.range_succ, List.map_append, List.map_singleton, List.getLast?_concat]
  obtain ⟨ha, ho, hb, hl⟩ := runAttempts_all_err base _ 0 hall
  rcases hl with hnil | ⟨ty', msg', hg, hle⟩
  · rw [hnil] at hlen
    exact absurd hlen (by simp)
  rw [hlast] at hg
  obtain ⟨hty, hmsg⟩ : ty' = tys maxRetries ∧ msg' = msgs maxRetries := by
    have := Option.some.inj hg
    cases this
    exact ⟨rfl, rfl⟩
  subst hty hmsg
  have hpoc : process_one_call maxRetries base now uid
      (fun i => .err (tys i) (msgs i)) db
      = mark_failed uid (clean_error (tys maxRetries) (msgs maxRetries)) now db := by
    simp only [process_one_call, ho, hle]
  refine ⟨?_, ?_, ?_, ?_, ?_, ?_⟩
  · rw [ha, hlen]
  · rfl
  · exact ho
  · rw [hb, hlen]
    simp
  · intro r' hr' huid
    rw [hpoc] at hr'
    unfold mark_failed at hr'
    rcases List.mem_map.1 hr' with ⟨r, _, rfl⟩
    by_cases hc : (r.call_uid == uid) = true
    · rw [if_pos hc]
      refine ⟨rfl, rfl, ?_⟩
      intro e he
      have he' : e = (clean_error (tys maxRetries) (msgs maxRetries)).take 500 :=
        (Option.some.inj he).symm
      subst he'
      refine ⟨List.length_take_le _ _, ?_, ?_⟩
      · intro hne
        cases hty0 : tys maxRetries with
        | nil => exact absurd hty0 hne
        | cons c t =>
          have hce : clean_error (c :: t) (msgs maxRetries)
              = c :: (t ++ ':' :: ' ' :: pyStrip (cutBeforeSub
                  (String.toList ("s3://")) (msgs maxRetries))) := rfl
          rw [hce, List.take_succ_cons]
          exact List.cons_ne_nil _ _
      · have hce : clean_error (tys maxRetries) (msgs maxRetries)
            = tys maxRetries ++ ':' :: ' ' :: pyStrip (cutBeforeSub
                (String.toList ("s3://")) (msgs maxRetries)) := rfl
        rw [hce, List.take_append_eq_append_take]
        exact List.prefix_append _ _
    · rw [if_neg hc] at huid
      exact absurd (beq_iff_eq.2 huid) hc
  · intro d c u
    cases d <;> cases c <;> rfl

/-- C8 (amended): on successful processing, `mark_completed` sets the storage
key, sets `processed = true`, marks the row `completed`, records the attempt
timestamp, and reports the affected-row count, which the worker checks against
1 and only logs on mismatch; the committed update is the same regardless of
that count (no rollback), and the `error` column is left unchanged rather than
cleared to NULL (claimed rows already carry a NULL error, so completed rows
still end with a NULL error in practice). -/
theorem claim_C8_completion_update (uid uri key : Str) (now : Nat) (db : DB) :
    List.Forall₂ (fun r r' =>
      (r.call_uid = uid → r' = completedRow uri key now r) ∧
      (r.call_uid ≠ uid → r' = r) ∧
      r'.error = r.error)
      db (mark_completed uid uri key now db).1 ∧
    (mark_completed uid uri key now db).2 = db.countP (fun r => r.call_uid == uid) ∧
    (∀ n, (mark_completed uid uri key now db).2 = n →
      (mark_completed uid uri key now db).1
        = db.map (fun r =>
            if r.call_uid == uid then completedRow uri key now r else r)) := by
  refine ⟨?_, rfl, fun n _ => rfl⟩
  have hfst : (mark_completed uid uri key now db).1 = db.map (fun r =>
      if r.call_uid == uid then completedRow uri key now r else r) := rfl
  rw [hfst]
  refine forall₂_map_self _ _ (fun r => ?_) db
  by_cases hc : (r.call_uid == uid) = true
  · rw [if_pos hc]
    exact ⟨fun _ => rfl, fun hne => absurd (beq_iff_eq.1 hc) hne, rfl⟩
  · rw [if_neg hc]
    exact ⟨fun he => absurd (beq_iff_eq.2 he) hc, fun _ => rfl, rfl⟩

/-- Counterexample to C8 as stated: the completion UPDATE does not clear the
`error` field — a row completed while carrying a non-null error keeps it. -/
theorem claim_C8_counterexample :
    ∃ r ∈ (mark_completed (String.toList ("a")) (String.toList ("u"))
        (String.toList ("k")) 5 [c8Row]).1,
      r.call_uid = String.toList ("a") ∧ r.status = .completed ∧
      r.processed = true ∧ r.error ≠ none := by
  decide

lemma quick_insert_snd (now : Nat) (pl : Str) (c : ApiCall) (db : DB) :
    (quick_insert_call_metadata now pl c db).2 = db ∨
    ((¬ ∃ r ∈ db, r.call_uid = call_uid_of c) ∧
      (quick_insert_call_metadata now pl c db).2 = db ++ [newCallRow now pl c]) := by
  unfold quick_insert_call_metadata
  by_cases hany : (db.any fun r => r.call_uid == call_uid_of c) = true
  · rw [if_pos hany]
    exact Or.inl rfl
  · rw [if_neg hany]
    refine Or.inr ⟨?_, rfl⟩
    rintro ⟨r, hr, he⟩
    exact hany (List.any_eq_true.2 ⟨r, hr, beq_iff_eq.2 he⟩)

lemma processedHasKey_map (f : CallRow → CallRow) (db : DB)
    (hf : ∀ r : CallRow, (r.processed = true → r.s3_key_v2 ≠ none) →
      ((f r).processed = true → (f r).s3_key_v2 ≠ none))
    (h : ProcessedHasKey db) : ProcessedHasKey (db.map f) := by
  intro r' hr'
  rcases List.mem_map.1 hr' with ⟨r, hr, rfl⟩
  exact hf r (h r hr)

lemma pipelineStep_processedHasKey {db db' : DB} (h : PipelineStep db db')
    (hinv : ProcessedHasKey db) : ProcessedHasKey db' := by
  cases h with
  | insert now pl c db =>
    rcases quick_insert_snd now pl c db with he | ⟨_, he⟩
    · rw [he]
      exact hinv
    · rw [he]
      intro r hr hp
      rcases List.mem_append.1 hr with h1 | h2
      · exact hinv r h1 hp
      · rw [List.mem_singleton.1 h2] at hp
        exact absurd hp (by simp [newCallRow])
  | recover timeoutMin now db =>
    refine processedHasKey_map _ db (fun r hr => ?_) hinv
    by_cases hs : stuckTimedOut timeoutMin now r = true
    · rw [if_pos hs]
      exact hr
    · rw [if_neg hs]
      exact hr
  | claim batchSize now db =>
    refine processedHasKey_map _ db (fun r hr => ?_) hinv
    by_cases hc : ((claimSelect batchSize db).map (fun x => x.call_uid)).contains r.call_uid = true
    · rw [if_pos hc]
      exact hr
    · rw [if_neg hc]
      exact hr
  | complete uid uri key now db =>
    refine processedHasKey_map _ db (fun r hr => ?_) hinv
    by_cases hc : (r.call_uid == uid) = true
    · rw [if_pos hc]
      intro _
      simp [completedRow]
    · rw [if_neg hc]
      exact hr
  | fail uid msg now db =>
    refine processedHasKey_map _ db (fun r hr => ?_) hinv
    by_cases hc : (r.call_uid == uid) = true
    · rw [if_pos hc]
      exact hr
    · rw [if_neg hc]
      exact hr

/-- C2: in every reachable table state, `processed = true` implies a non-null
`s3_key_v2`; and a row is completed only after its upload succeeded — when the
retry loop reports success `(k, u)`, that pair was returned by an actual
`store_audio` attempt and the completion update uses exactly that key, while
when no attempt succeeds, no row becomes `processed` that was not already
`processed` with the same key before. -/
theorem claim_C2_processed_has_key :
    (∀ db : DB, Reachable db → ∀ r ∈ db, r.processed = true → r.s3_key_v2 ≠ none) ∧
    (∀ (maxRetries base now : Nat) (uid : Str) (outcomes : Nat → StoreOutcome)
        (db : DB) (k u : Str),
      (runAttempts base 0 (outcomesList maxRetries outcomes)).outcome = some (k, u) →
        (∃ i ≤ maxRetries, outcomes i = .ok k u) ∧
        process_one_call maxRetries base now uid outcomes db
          = (mark_completed uid u k now db).1) ∧
    (∀ (maxRetries base now : Nat) (uid : Str) (outcomes : Nat → StoreOutcome)
        (db : DB),
      (runAttempts base 0 (outcomesList maxRetries outcomes)).outcome = none →
        ∀ r' ∈ process_one_call maxRetries base now uid outcomes db,
          r'.processed = true →
            ∃ r ∈ db, r.processed = true ∧ r.call_uid = r'.call_uid ∧
              r.s3_key_v2 = r'.s3_key_v2) := by
  refine ⟨?_, ?_, ?_⟩
  · intro db hreach
    unfold Reachable at hreach
    induction hreach with
    | refl => intro r hr; exact absurd hr (List.not_mem_nil r)
    | tail _ hstep ih => exact pipelineStep_processedHasKey hstep ih
  · intro maxRetries base now uid outcomes db k u hok
    constructor
    · have hmem := runAttempts_ok_mem base (outcomesList maxRetries outcomes) 0 k u hok
      rcases List.mem_map.1 hmem with ⟨i, hi, hfi⟩
      exact ⟨i, Nat.lt_succ_iff.1 (List.mem_range.1 hi), hfi⟩
    · simp only [process_one_call, hok]
  · intro maxRetries base now uid outcomes db hnone r' hr' hp
    simp only [process_one_call, hnone] at hr'
    cases hle : (runAttempts base 0 (outcomesList maxRetries outcomes)).lastError with
    | none =>
      rw [hle] at hr'
      exact ⟨r', hr', hp, rfl, rfl⟩
    | some e =>
      rw [hle] at hr'
      obtain ⟨ty, msg⟩ := e
      unfold mark_failed at hr'
      rcases List.mem_map.1 hr' with ⟨r, hr, rfl⟩
      by_cases hc : (r.call_uid == uid) = true
      · rw [if_pos hc] at hp ⊢
        exact ⟨r, hr, hp, rfl, rfl⟩
      · rw [if_neg hc] at hp ⊢
        exact ⟨r, hr, hp, rfl, rfl⟩

lemma failedLocked_map {uid : Str} {db : DB} (f : CallRow → CallRow)
    (hf : ∀ r : CallRow, (f r).call_uid = r.call_uid ∧
      ((f r).error = r.error ∨ (f r).error ≠ none))
    (h : FailedLocked uid db) : FailedLocked uid (db.map f) := by
  obtain ⟨⟨r0, hr0, hr0u⟩, hall⟩ := h
  constructor
  · exact ⟨f r0, List.mem_map_of_mem f hr0, (hf r0).1.trans hr0u⟩
  · intro r' hr' hu'
    rcases List.mem_map.1 hr' with ⟨r, hr, rfl⟩
    have hru : r.call_uid = uid := ((hf r).1.symm.trans hu')
    rcases (hf r).2 with he | hne
    · rw [he]
      exact hall r hr hru
    · exact hne

lemma pipelineStep_failedLocked {uid : Str} {db db' : DB} (h : PipelineStep db db')
    (hinv : FailedLocked uid db) : FailedLocked uid db' := by
  cases h with
  | insert now pl c db =>
    rcases quick_insert_snd now pl c db with he | ⟨hno, he⟩
    · rw [he]
      exact hinv
    · rw [he]
      obtain ⟨⟨r0, hr0, hr0u⟩, hall⟩ := hinv
      have hne : call_uid_of c ≠ uid := by
        intro hcu
        exact hno ⟨r0, hr0, hr0u.trans hcu.symm⟩
      constructor
      · exact ⟨r0, List.mem_append_left _ hr0, hr0u⟩
      · intro r hr hu
        rcases List.mem_append.1 hr with h1 | h2
        · exact hall r h1 hu
        · rw [List.mem_singleton.1 h2] at hu
          exact absurd hu (by simpa [newCallRow] using hne)
  | recover timeoutMin now db =>
    refine failedLocked_map _ (fun r => ?_) hinv
    by_cases hs : stuckTimedOut timeoutMin now r = true
    · rw [if_pos hs]
      exact ⟨rfl, Or.inl rfl⟩
    · rw [if_neg hs]
      exact ⟨rfl, Or.inl rfl⟩
  | claim batchSize now db =>
    refine failedLocked_map _ (fun r => ?_) hinv
    by_cases hc : ((claimSelect batchSize db).map (fun x => x.call_uid)).contains r.call_uid = true
    · rw [if_pos hc]
      exact ⟨rfl, Or.inl rfl⟩
    · rw [if_neg hc]
      exact ⟨rfl, Or.inl rfl⟩
  | complete uid' uri key now db =>
    refine failedLocked_map _ (fun r => ?_) hinv
    by_cases hc : (r.call_uid == uid') = true
    · rw [if_pos hc]
      exact ⟨rfl, Or.inl rfl⟩
    · rw [if_neg hc]
      exact ⟨rfl, Or.inl rfl⟩
  | fail uid' msg now db =>
    refine failedLocked_map _ (fun r => ?_) hinv
    by_cases hc : (r.call_uid == uid') = true
    · rw [if_pos hc]
      exact ⟨rfl, Or.inr (by simp)⟩
    · rw [if_neg hc]
      exact ⟨rfl, Or.inl rfl⟩

lemma mem_claimSelect {n : Nat} {db : DB} {r : CallRow} (h : r ∈ claimSelect n db) :
    r ∈ db ∧ r.status = .pending ∧ r.error = none := by
  unfold claimSelect at h
  have h1 : r ∈ sortBy (fun a b => a.fetched_at ≤ b.fetched_at)
      (db.filter claimEligible) := List.mem_of_mem_take h
  have h2 := (sortBy_perm (fun a b => a.fetched_at ≤ b.fetched_at)
      (db.filter claimEligible)).mem_iff.mp h1
  have h3 := List.mem_filter.1 h2
  have h4 := h3.2
  unfold claimEligible at h4
  simp only [Bool.and_eq_true] at h4
  exact ⟨h3.1, beq_iff_eq.1 h4.1, beq_iff_eq.1 h4.2⟩

/-- C10: the claim transaction only claims rows with `status = 'pending'` and a
NULL `error`; and once `mark_failed` has stamped a row (non-null error,
`status = 'failed'`), no later pipeline activity — recovery sweeps, claims,
inserts, completions or further failures — ever lets a claim batch contain that
call again, so a failed call is never automatically re-processed. -/
theorem claim_C10_failed_not_reclaimed :
    (∀ (batchSize now : Nat) (db : DB),
      ∀ r ∈ (claim_pending_batch batchSize now db).1,
        r ∈ db ∧ r.status = .pending ∧ r.error = none) ∧
    (∀ (uid msg : Str) (now₀ : Nat) (db : DB),
      (∃ r ∈ db, r.call_uid = uid) →
      ∀ db' : DB, Relation.ReflTransGen PipelineStep (mark_failed uid msg now₀ db) db' →
        ∀ (batchSize now : Nat),
          uid ∉ (claim_pending_batch batchSize now db').1.map (fun r => r.call_uid)) := by
  constructor
  · intro batchSize now db r hr
    exact mem_claimSelect hr
  · intro uid msg now₀ db hex db' hreach
    have h0 : FailedLocked uid (mark_failed uid msg now₀ db) := by
      obtain ⟨r0, hr0, hr0u⟩ := hex
      have hb : (r0.call_uid == uid) = true := beq_iff_eq.2 hr0u
      constructor
      · refine ⟨_, List.mem_map_of_mem _ hr0, ?_⟩
        simp [hb, hr0u]
      · intro r' hr' hu'
        unfold mark_failed at hr'
        rcases List.mem_map.1 hr' with ⟨r, hr, rfl⟩
        by_cases hc : (r.call_uid == uid) = true
        · rw [if_pos hc]
          simp
        · rw [if_neg hc] at hu' ⊢
          exact absurd (beq_iff_eq.2 hu') hc
    have hF : FailedLocked uid db' := by
      induction hreach with
      | refl => exact h0
      | tail _ hstep ih => exact pipelineStep_failedLocked hstep ih
    intro batchSize now hmem
    rcases List.mem_map.1 hmem with ⟨rB, hrB, hrBu⟩
    obtain ⟨hmemdb, _, herr⟩ :=
      mem_claimSelect (show rB ∈ claimSelect batchSize db' from hrB)
    exact absurd herr (hF.2 rB hmemdb hrBu)

lemma contains_iff_mem_str (l : List Str) (a : Str) : l.contains a = true ↔ a ∈ l := by
  simp

lemma filter_map_eq (f : CallRow → CallRow) (p q : CallRow → Bool)
    (hfp : ∀ r, p (f r) = q r) (hid : ∀ r, q r = true → f r = r) :
    ∀ db : DB, (db.map f).filter p = db.filter q := by
  intro db
  induction db with
  | nil => rfl
  | cons r t ih =>
    rw [List.map_cons, List.filter_cons, List.filter_cons, hfp r]
    cases hq : q r
    · simp only [Bool.false_eq_true, if_false]
      exact ih
    · rw [if_pos rfl, if_pos rfl, hid r hq, ih]

/-- After the claim UPDATE commits, the still-claimable rows are exactly the
previously claimable rows whose `call_uid` was not claimed. -/
lemma filter_markProcessing (uids : List Str) (now : Nat) (db : DB) :
    (markProcessing uids now db).filter claimEligible
      = db.filter fun r => !(uids.contains r.call_uid) && claimEligible r := by
  unfold markProcessing
  refine filter_map_eq _ _ _ (fun r => ?_) (fun r hq => ?_) db
  · by_cases hc : uids.contains r.call_uid = true
    · rw [if_pos hc, hc]
      rfl
    · have hcf : uids.contains r.call_uid = false := by
        simpa using hc
      rw [if_neg hc, hcf]
      rfl
  · simp only [Bool.and_eq_true] at hq
    have hcf : uids.contains r.call_uid = false := by
      simpa using hq.1
    rw [if_neg (by rw [hcf]; simp)]

lemma markProcessing_claimed_row {uids : List Str} {now : Nat} {db : DB} {r' : CallRow}
    (h : r' ∈ markProcessing uids now db) (hu : uids.contains r'.call_uid = true) :
    r'.status = .processing ∧ r'.picked_at = some now := by
  unfold markProcessing at h
  rcases List.mem_map.1 h with ⟨r, _, rfl⟩
  by_cases hc : uids.contains r.call_uid = true
  · rw [if_pos hc]
    exact ⟨rfl, rfl⟩
  · rw [if_neg hc] at hu
    exact absurd hu hc

lemma countP_not_split (p : CallRow → Bool) (l : List CallRow) :
    l.countP p + l.countP (fun a => !(p a)) = l.length := by
  induction l with
  | nil => rfl
  | cons a t ih =>
    rw [List.countP_cons, List.countP_cons, List.length_cons]
    cases hp : p a <;> simp [hp] <;> omega

/-- C1 (amended): for a pending, error-free row, never do both claimants'
batches contain it (exclusivity, unconditional); a claimant that has it marks
it `processing` with its own claim timestamp; and it lands in exactly one of
the two batches whenever the number of claimable rows is at most twice the
batch limit (with more claimable rows than both limits combined, a row beyond
the limits is claimed by neither — see the counterexample). -/
theorem claim_C1_claim_exclusivity (n t₁ t₂ : Nat) (db : DB) (uid : Str)
    (hrow : ∃ r ∈ db, r.call_uid = uid ∧ r.status = .pending ∧ r.error = none) :
    ¬ (uid ∈ (claim_pending_batch n t₁ db).1.map (fun r => r.call_uid) ∧
        uid ∈ (claim_pending_batch n t₂
          (claim_pending_batch n t₁ db).2).1.map (fun r => r.call_uid)) ∧
    ((uid ∈ (claim_pending_batch n t₁ db).1.map (fun r => r.call_uid)) →
      ∀ r' ∈ (claim_pending_batch n t₁ db).2, r'.call_uid = uid →
        r'.status = .processing ∧ r'.picked_at = some t₁) ∧
    ((db.filter claimEligible).length ≤ 2 * n →
      uid ∈ (claim_pending_batch n t₁ db).1.map (fun r => r.call_uid) ∨
      uid ∈ (claim_pending_batch n t₂
        (claim_pending_batch n t₁ db).2).1.map (fun r => r.call_uid)) := by
  have e1 : (claim_pending_batch n t₁ db).1 = claimSelect n db := rfl
  have e2 : (claim_pending_batch n t₁ db).2
      = markProcessing ((claimSelect n db).map (fun r => r.call_uid)) t₁ db := rfl
  have e4 : ∀ X : DB, (claim_pending_batch n t₂ X).1 = claimSelect n X := fun _ => rfl
  rw [e1, e2, e4]
  refine ⟨?_, ?_, ?_⟩
  · rintro ⟨hA, hB⟩
    rcases List.mem_map.1 hB with ⟨rB, hrB, hrBu⟩
    obtain ⟨h1, h2, _⟩ := mem_claimSelect hrB
    have hcont : ((claimSelect n db).map (fun r => r.call_uid)).contains rB.call_uid = true := by
      rw [hrBu]
      exact (contains_iff_mem_str _ _).2 hA
    have h3 := (markProcessing_claimed_row h1 hcont).1
    exact absurd (h2.symm.trans h3) (by decide)
  · intro hA r' hr' hu'
    have hcont : ((claimSelect n db).map (fun r => r.call_uid)).contains r'.call_uid = true := by
      rw [hu']
      exact (contains_iff_mem_str _ _).2 hA
    exact markProcessing_claimed_row hr' hcont
  · intro hlen
    by_cases hA : uid ∈ (claimSelect n db).map (fun r => r.call_uid)
    · exact Or.inl hA
    refine Or.inr ?_
    obtain ⟨r, hr, hruid, hrpend, hrerr⟩ := hrow
    have helig : claimEligible r = true := by
      unfold claimEligible
      rw [hrpend, hrerr]
      rfl
    have hnc : ((claimSelect n db).map (fun r => r.call_uid)).contains r.call_uid = false := by
      by_cases h : ((claimSelect n db).map (fun r => r.call_uid)).contains r.call_uid = true
      · exfalso
        apply hA
        have h' : ((claimSelect n db).map (fun r => r.call_uid)).contains uid = true := by
          rw [← hruid]
          exact h
        exact (contains_iff_mem_str _ _).1 h'
      · simpa using h
    have hr1 : r ∈ markProcessing ((claimSelect n db).map (fun r => r.call_uid)) t₁ db := by
      unfold markProcessing
      refine List.mem_map.2 ⟨r, hr, ?_⟩
      rw [if_neg (by rw [hnc]; simp)]
    have hrF : r ∈ (markProcessing ((claimSelect n db).map
        (fun r => r.call_uid)) t₁ db).filter claimEligible :=
      List.mem_filter.2 ⟨hr1, helig⟩
    have hstepB : ((sortBy (fun a b => a.fetched_at ≤ b.fetched_at)
          (db.filter claimEligible)).take n).countP
          (fun r => ((claimSelect n db).map (fun r => r.call_uid)).contains r.call_uid)
        = ((sortBy (fun a b => a.fetched_at ≤ b.fetched_at)
          (db.filter claimEligible)).take n).length := by
      refine List.countP_eq_length.2 fun a ha => ?_
      exact (contains_iff_mem_str _ _).2
        (List.mem_map_of_mem (fun r => r.call_uid) ha)
    have hsub : ((sortBy (fun a b => a.fetched_at ≤ b.fetched_at)
          (db.filter claimEligible)).take n).countP
          (fun r => ((claimSelect n db).map (fun r => r.call_uid)).contains r.call_uid)
        ≤ (db.filter claimEligible).countP
          (fun r => ((claimSelect n db).map (fun r => r.call_uid)).contains r.call_uid) := by
      have hs := (List.take_sublist n (sortBy (fun a b => a.fetched_at ≤ b.fetched_at)
          (db.filter claimEligible))).countP_le
          (fun r => ((claimSelect n db).map (fun r => r.call_uid)).contains r.call_uid)
      have hp := (sortBy_perm (fun a b => a.fetched_at ≤ b.fetched_at)
          (db.filter claimEligible)).countP_eq
          (fun r => ((claimSelect n db).map (fun r => r.call_uid)).contains r.call_uid)
      exact hs.trans (le_of_eq hp)
    have hlentake : ((sortBy (fun a b => a.fetched_at ≤ b.fetched_at)
          (db.filter claimEligible)).take n).length
        = min n (db.filter claimEligible).length := by
      rw [List.length_take, (sortBy_perm _ _).length_eq]
    have hgeq : min n (db.filter claimEligible).length
        ≤ (db.filter claimEligible).countP
          (fun r => ((claimSelect n db).map (fun r => r.call_uid)).contains r.call_uid) := by
      rw [← hlentake, ← hstepB]
      exact hsub
    have hsplit := countP_not_split
      (fun r => ((claimSelect n db).map (fun r => r.call_uid)).contains r.call_uid)
      (db.filter claimEligible)
    have hff : ((db.filter claimEligible).filter
          (fun r => !(((claimSelect n db).map (fun r => r.call_uid)).contains r.call_uid)))
        = db.filter (fun r => !(((claimSelect n db).map
            (fun r => r.call_uid)).contains r.call_uid) && claimEligible r) :=
      List.filter_filter ..
    have hc := List.countP_eq_length_filter
      (fun r => !(((claimSelect n db).map (fun r => r.call_uid)).contains r.call_uid))
      (db.filter claimEligible)
    have hlen1 : ((markProcessing ((claimSelect n db).map
          (fun r => r.call_uid)) t₁ db).filter claimEligible).length ≤ n := by
      rw [filter_markProcessing, ← hff, ← hc]
      rcases le_total n (db.filter claimEligible).length with hm | hm
      · rw [min_eq_left hm] at hgeq
        omega
      · rw [min_eq_right hm] at hgeq
        omega
    have htake : claimSelect n (markProcessing ((claimSelect n db).map
          (fun r => r.call_uid)) t₁ db)
        = sortBy (fun a b => a.fetched_at ≤ b.fetched_at)
            ((markProcessing ((claimSelect n db).map (fun r => r.call_uid)) t₁ db).filter
              claimEligible) := by
      unfold claimSelect
      refine List.take_of_length_le ?_
      rw [(sortBy_perm _ _).length_eq]
      exact hlen1
    refine List.mem_map.2 ⟨r, ?_, hruid⟩
    rw [htake]
    exact (sortBy_perm _ _).mem_iff.mpr hrF

/-- Witness for C1: with one pending row and batch limit 1, the row lands in
one of the two claim batches. -/
theorem claim_C1_witness :
    (String.toList ("w")) ∈ (claim_pending_batch 1 1 [c1Row]).1.map
      (fun r => r.call_uid) ∨
    (String.toList ("w")) ∈ (claim_pending_batch 1 2
      (claim_pending_batch 1 1 [c1Row]).2).1.map (fun r => r.call_uid) :=
  (claim_C1_claim_exclusivity 1 1 2 [c1Row] (String.toList ("w"))
    (by decide)).2.2 (by decide)

/-- Counterexample to C1 as stated: with 41 pending rows and the default batch
limit of 20, the newest pending row is contained in neither of two successive
claim batches — "exactly one claimant's returned batch contains that row" fails
for it. -/
theorem claim_C1_counterexample :
    cexRow 40 ∈ cexDB ∧ (cexRow 40).status = .pending ∧ (cexRow 40).error = none ∧
    (toString 40).toList ∉ (claim_pending_batch BATCH_SIZE 1 cexDB).1.map
      (fun r => r.call_uid) ∧
    (toString 40).toList ∉ (claim_pending_batch BATCH_SIZE 2
      (claim_pending_batch BATCH_SIZE 1 cexDB).2).1.map (fun r => r.call_uid) := by
  decide

/-- C9: a call whose processing-state is `transcribed` or `indexed`, or that
already has a transcript row, is never selected by
`get_pending_transcriptions`, so the dispatcher never re-queues it. -/
theorem claim_C9_terminal_not_requeued (batchSize cutoff : Nat) (calls : DB)
    (ts : List TranscriptRow) (ps : List ProcessingStateRow) (uid : Str)
    (h : hasTranscript ts uid = true ∨
      ∃ p, psLookup ps uid = some p ∧
        (p.status = .transcribed ∨ p.status = .indexed)) :
    ∀ c ∈ get_pending_transcriptions batchSize cutoff calls ts ps,
      c.call_uid ≠ uid := by
  intro c hc hcu
  have h1 : c ∈ calls.filter (transcriptionEligible cutoff ts ps) :=
    (sortBy_perm _ _).mem_iff.mp (List.mem_of_mem_take hc)
  have h2 := (List.mem_filter.1 h1).2
  have hfalse : transcriptionEligible cutoff ts ps c = false := by
    unfold transcriptionEligible
    rcases h with hts | ⟨p, hp, hstat⟩
    · rw [hcu, hts]
      simp
    · rw [hcu, hp]
      rcases hstat with h' | h'
      · simp [h']
      · simp [h']
  rw [hfalse] at h2
  simp at h2

/-- Witness for C9: with one transcribed call and one fresh call, the selected
row is not the transcribed call. -/
theorem claim_C9_witness : c9Good.call_uid ≠ String.toList ("b") :=
  claim_C9_terminal_not_requeued 10 0 [c9Good, c9Done] [] [c9PS]
    (String.toList ("b"))
    (Or.inr ⟨c9PS, by decide, Or.inl rfl⟩)
    c9Good (by decide)
